import Mathlib

/-!
Verification development for the MCP-Orchestrator-Framework repository.

The repository ships only smoke-test scripts (a WebSocket command sender,
an HTTP test script), a Dockerfile, a README and the original design
prompt; the orchestrator package itself (providers, failure policies,
combination strategies) is not present in the sources.  The orchestrator
is therefore modelled here from the specification document, while the
WebSocket command-sending script is embedded directly from its source.
-/

/-- Modelled from the spec: the failure policy enumeration of the
Orchestrator (spec section 4.2); the missing `mcp_orchestrator` package
defines no source for it. -/
inductive FailurePolicy where
  | failFast
  | bestEffort
  | bestEffortWithThreshold (minSuccesses : Nat)
deriving DecidableEq

/-- Modelled from the spec: the strategy-level error of section 7,
`MergeConflict` naming the colliding key and the input positions
(registration indices) of the two colliding providers. -/
inductive MergeError where
  | conflict (key : String) (firstProvider secondProvider : Nat)
deriving DecidableEq

/-- Modelled from the spec: the caller-visible error taxonomy of
section 7 (`AggregateError`, `InsufficientContext`, surfaced
`MergeConflict`).  Per-provider causes are `(providerIdentity, cause)`
pairs; `ProviderTimeout` concerns real time and is outside the model. -/
inductive OrchError where
  | aggregateError (failures : List (String × String))
  | insufficientContext (got needed : Nat)
  | mergeConflict (key : String) (firstProvider secondProvider : Nat)
deriving DecidableEq

/-- Modelled from the spec: the `CombinationStrategy` contract of
section 4.3, `combine(orderedContexts) -> mergedContext`, which may
fail only with a strategy-level merge error. -/
structure CombinationStrategy (α : Type) where
  combine : List α → Except MergeError α

/-- Modelled from the spec: the `ContextProvider` collaborator of
section 4.1 with a mandatory `fetch` capability and an optional
`update` capability, each failing with a provider error message. -/
structure ContextProvider (q α ρ : Type) where
  identity : String
  fetch : q → Except String α
  update : Option (ρ → Except String Unit)

/-- Modelled from the spec: the tagged per-provider outcome
`ContextResult` of section 3 — `Success(value)` or
`Failure(error, providerIdentity)`. -/
inductive ContextResult (α : Type) where
  | success (value : α)
  | failure (error : String) (providerIdentity : String)
deriving DecidableEq

/-- Modelled from the spec: the call-boundary isolation of section 7 —
a provider-level error is caught and converted into a typed failure
value carrying the provider identity, never left to escape. -/
def fetchOutcome {q α ρ : Type} (p : ContextProvider q α ρ) (query : q) : ContextResult α :=
  match p.fetch query with
  | Except.ok v => ContextResult.success v
  | Except.error e => ContextResult.failure e p.identity

/-- Modelled from the spec: the fan-out of section 4.2 step 1 — every
provider is dispatched with the same query and each call's result is
written to its own slot, in registration order. -/
def gatherResults {q α ρ : Type} (providers : List (ContextProvider q α ρ)) (query : q) :
    List (ContextResult α) :=
  providers.map (fun p => fetchOutcome p query)

/-- Modelled from the spec: the surviving successful contexts of a
result list, in original order (section 4.2 step 4). -/
def successValues {α : Type} (results : List (ContextResult α)) : List α :=
  results.filterMap (fun r =>
    match r with
    | ContextResult.success v => some v
    | ContextResult.failure _ _ => none)

/-- Modelled from the spec: the `(providerIdentity, cause)` pairs of
the failed slots of a result list, in original order. -/
def failureEntries {α : Type} (results : List (ContextResult α)) : List (String × String) :=
  results.filterMap (fun r =>
    match r with
    | ContextResult.success _ => none
    | ContextResult.failure e pid => some (pid, e))

/-- Modelled from the spec: the successful contexts a gather yields,
expressed directly against the providers in registration order. -/
def fetchedValues {q α ρ : Type} (providers : List (ContextProvider q α ρ)) (query : q) :
    List α :=
  providers.filterMap (fun p => (p.fetch query).toOption)

/-- Modelled from the spec: the failed providers of a gather with their
causes, expressed directly against the providers in registration order. -/
def fetchFailures {q α ρ : Type} (providers : List (ContextProvider q α ρ)) (query : q) :
    List (String × String) :=
  providers.filterMap (fun p =>
    match p.fetch query with
    | Except.ok _ => none
    | Except.error e => some (p.identity, e))

/-- Modelled from the spec: the Orchestrator configuration of section
4.2 — an ordered provider registry, one combination strategy and a
failure policy.  The optional formatter and the optional per-provider
timeout of the spec are not modelled (real time is outside the model
and no verified property concerns the formatter). -/
structure Orchestrator (q α ρ : Type) where
  providers : List (ContextProvider q α ρ)
  strategy : CombinationStrategy α
  policy : FailurePolicy

deriving instance DecidableEq for Except

/-- Modelled from the spec: the outcome of one gather — the merged
context or a typed error, together with the diagnostics list in which
failures are recorded (sections 4.2 and 7). -/
structure GatherOutcome (α : Type) where
  result : Except OrchError α
  diagnostics : List (String × String)
deriving DecidableEq

/-- Modelled from the spec: embedding of a strategy-level merge error
into the caller-visible error taxonomy. -/
def MergeError.toOrchError : MergeError → OrchError
  | MergeError.conflict key i j => OrchError.mergeConflict key i j

/-- Modelled from the spec: section 4.2 step 4 — the surviving contexts
are passed to the strategy, whose own error is surfaced typed. -/
def runStrategy {q α ρ : Type} (orch : Orchestrator q α ρ) (contexts : List α) :
    Except OrchError α :=
  (orch.strategy.combine contexts).mapError MergeError.toOrchError

/-- Modelled from the spec: section 4.2 step 3, the failure policy
applied to the settled results.  `FailFast` fails with an aggregate
error when any provider failed; `BestEffort` records failures as
diagnostics and combines the remaining successes; the threshold variant
fails with `InsufficientContext` when successes fall short. -/
def settleGather {q α ρ : Type} (orch : Orchestrator q α ρ) (results : List (ContextResult α)) :
    GatherOutcome α :=
  match orch.policy with
  | FailurePolicy.failFast =>
    match failureEntries results with
    | [] => GatherOutcome.mk (runStrategy orch (successValues results)) []
    | f :: fs =>
      GatherOutcome.mk (Except.error (OrchError.aggregateError (f :: fs))) (f :: fs)
  | FailurePolicy.bestEffort =>
    GatherOutcome.mk (runStrategy orch (successValues results)) (failureEntries results)
  | FailurePolicy.bestEffortWithThreshold minSuccesses =>
    if (successValues results).length < minSuccesses then
      GatherOutcome.mk
        (Except.error (OrchError.insufficientContext (successValues results).length minSuccesses))
        (failureEntries results)
    else
      GatherOutcome.mk (runStrategy orch (successValues results)) (failureEntries results)

/-- Modelled from the spec: `gatherAndCombine(query)` of section 4.2 —
fan-out, settle, apply the failure policy, combine. -/
def gatherAndCombine {q α ρ : Type} (orch : Orchestrator q α ρ) (query : q) : GatherOutcome α :=
  settleGather orch (gatherResults orch.providers query)

/-- Modelled from the spec: one completion event of the concurrent
fan-out (section 5) — the result of call `i` is delivered and written
to its own slot, affecting no sibling slot. -/
def deliverOne {β : Type} (results : List β) (slots : List (Option β)) (i : Nat) :
    List (Option β) :=
  match results[i]? with
  | some r => slots.set i (some r)
  | none => slots

/-- Modelled from the spec: the structured join of section 5 — starting
from empty slots, completion events arrive in an arbitrary order and
each writes its own slot. -/
def collectInOrder {β : Type} (results : List β) (order : List Nat) : List (Option β) :=
  order.foldl (deliverOne results) (List.replicate results.length none)

/-- Gathers the values of a slot list once every slot has been filled;
`none` when some slot never received its result. -/
def sequenceOptions {β : Type} : List (Option β) → Option (List β)
  | [] => some []
  | none :: _ => none
  | some b :: rest =>
    match sequenceOptions rest with
    | some bs => some (b :: bs)
    | none => none

/-- Modelled from the spec: `gatherAndCombine` under an explicit
completion schedule — the fan-out results arrive in the order given and
are collected into per-call slots before the failure policy and the
strategy run.  `none` when the schedule never delivers some call. -/
def gatherAndCombineWithOrder {q α ρ : Type} (orch : Orchestrator q α ρ) (query : q)
    (order : List Nat) : Option (GatherOutcome α) :=
  match sequenceOptions (collectInOrder (gatherResults orch.providers query) order) with
  | some results => some (settleGather orch results)
  | none => none

/-- Modelled from the spec: `propagateUpdate(response)` of section 4.2 —
`update` is dispatched to every provider exposing the capability, every
failure is caught and collected, and the call itself only ever returns
the diagnostics list of `(providerIdentity, error)` pairs. -/
def propagateUpdate {q α ρ : Type} (orch : Orchestrator q α ρ) (response : ρ) :
    List (String × String) :=
  orch.providers.filterMap (fun p =>
    match p.update with
    | none => none
    | some u =>
      match u response with
      | Except.ok _ => none
      | Except.error e => some (p.identity, e))

/-- Modelled from the spec: `SimpleConcatenationStrategy` of section
4.3 — treats each context as text and joins with a configurable
separator. -/
structure SimpleConcatenationStrategy where
  separator : String

/-- Modelled from the spec: the join of `SimpleConcatenationStrategy`,
empty input yielding the empty string and later contexts appended after
one separator each, in input order. -/
def SimpleConcatenationStrategy.combine (s : SimpleConcatenationStrategy)
    (contexts : List String) : Except MergeError String :=
  Except.ok
    (match contexts with
     | [] => ""
     | c :: cs => cs.foldl (fun acc x => acc ++ s.separator ++ x) c)

/-- Modelled from the spec: the default configuration of
`SimpleConcatenationStrategy`, whose separator is a single newline. -/
def SimpleConcatenationStrategy.withDefaultSeparator : SimpleConcatenationStrategy :=
  SimpleConcatenationStrategy.mk "\n"

/-- Modelled from the spec: the collision policies of
`DictionaryMergeStrategy` (section 4.3). -/
inductive CollisionPolicy where
  | lastWins
  | firstWins
  | failOnConflict
deriving DecidableEq

/-- Modelled from the spec: `DictionaryMergeStrategy` of section 4.3,
configured by its collision policy. -/
structure DictionaryMergeStrategy where
  collisionPolicy : CollisionPolicy

/-- Modelled from the spec: the default configuration of
`DictionaryMergeStrategy`, whose collision policy is `LastWins`. -/
def DictionaryMergeStrategy.withDefaultPolicy : DictionaryMergeStrategy :=
  DictionaryMergeStrategy.mk CollisionPolicy.lastWins

/-- Modelled from the spec: insertion of one key-value pair coming from
the context at input position `originIdx` into the accumulated
dictionary, whose entries remember the input position that set them.
On a collision, `LastWins` overwrites, `FirstWins` keeps, and
`FailOnConflict` raises the merge conflict naming the key and both
positions. -/
def insertEntry {β : Type} (policy : CollisionPolicy) (acc : List (String × β × Nat))
    (originIdx : Nat) (key : String) (value : β) :
    Except MergeError (List (String × β × Nat)) :=
  match acc.find? (fun entry => entry.1 == key) with
  | none => Except.ok (acc ++ [(key, value, originIdx)])
  | some entry =>
    match policy with
    | CollisionPolicy.lastWins =>
      Except.ok (acc.map (fun en => if en.1 == key then (key, value, originIdx) else en))
    | CollisionPolicy.firstWins => Except.ok acc
    | CollisionPolicy.failOnConflict =>
      Except.error (MergeError.conflict key entry.2.2 originIdx)

/-- Modelled from the spec: merging one whole context (a key-value
mapping) into the accumulated dictionary, entry by entry. -/
def insertContext {β : Type} (policy : CollisionPolicy) (acc : List (String × β × Nat))
    (originIdx : Nat) (context : List (String × β)) :
    Except MergeError (List (String × β × Nat)) :=
  context.foldlM (fun a kv => insertEntry policy a originIdx kv.1 kv.2) acc

/-- Modelled from the spec: the left-to-right merge of all contexts in
input order, each tagged with its input position. -/
def mergeTagged {β : Type} (policy : CollisionPolicy) (contexts : List (List (String × β))) :
    Except MergeError (List (String × β × Nat)) :=
  contexts.enum.foldlM (fun acc pair => insertContext policy acc pair.1 pair.2) []

/-- Modelled from the spec: `combine` of `DictionaryMergeStrategy` —
the merged mapping with the position tags stripped. -/
def DictionaryMergeStrategy.combine {β : Type} (s : DictionaryMergeStrategy)
    (contexts : List (List (String × β))) : Except MergeError (List (String × β)) :=
  (mergeTagged s.collisionPolicy contexts).map
    (fun entries => entries.map (fun entry => (entry.1, entry.2.1)))

/-- Default command of the command-sending script
(src/unnamed/part_001 line 5). -/
def defaultCommand : String := "Go to google.com"

/-- JavaScript string disjunction: in `x || d` a present, non-empty
string is kept and an absent or empty one falls through to the default
(the empty string is falsy in JavaScript). -/
def jsStringOr (x : Option String) (d : String) : String :=
  match x with
  | some s => if s = "" then d else s
  | none => d

/-- The message object built by the command-sending script
(src/unnamed/part_001 lines 16-19). -/
structure ExecuteMessage where
  type : String
  command : String
deriving DecidableEq

/-- Lowercase hexadecimal digit, as produced by JSON string escaping. -/
def hexDigit (n : Nat) : Char :=
  if n < 10 then Char.ofNat (48 + n) else Char.ofNat (87 + n)

/-- JSON string escaping of one character, following JSON.stringify:
quote, backslash and the named control characters get two-character
escapes, the remaining control characters get a unicode escape, and
everything else passes through. -/
def jsonEscapeChar (c : Char) : String :=
  if c = Char.ofNat 34 then "\\\""
  else if c = Char.ofNat 92 then "\\\\"
  else if c = Char.ofNat 8 then "\\b"
  else if c = Char.ofNat 9 then "\\t"
  else if c = Char.ofNat 10 then "\\n"
  else if c = Char.ofNat 12 then "\\f"
  else if c = Char.ofNat 13 then "\\r"
  else if c.toNat < 32 then
    "\\u00" ++ String.singleton (hexDigit (c.toNat / 16)) ++ String.singleton (hexDigit (c.toNat % 16))
  else String.singleton c

/-- JSON string escaping of a whole string. -/
def jsonEscape (s : String) : String :=
  String.join (s.data.map jsonEscapeChar)

/-- A JSON string literal. -/
def jsonStringifyString (s : String) : String :=
  "\"" ++ jsonEscape s ++ "\""

/-- JSON.stringify of the two-field message object the script sends:
keys appear in insertion order, `type` first, then `command`. -/
def jsonStringifyExecuteMessage (m : ExecuteMessage) : String :=
  "\x7b" ++ jsonStringifyString "type" ++ ":" ++ jsonStringifyString m.type ++ ","
    ++ jsonStringifyString "command" ++ ":" ++ jsonStringifyString m.command ++ "\x7d"

/-- The text the script sends over an opened WebSocket connection, as a
function of the optional first command-line argument
(src/unnamed/part_001: line 5 computes the command with a JavaScript
`||` default, lines 16-22 build the object and send its
JSON.stringify; the port-3000 fallback handler sends the identical
message). -/
def sentMessage (argv2 : Option String) : String :=
  jsonStringifyExecuteMessage (ExecuteMessage.mk "execute" (jsStringOr argv2 defaultCommand))

/-- The command field the claim under examination predicts: the first
command-line argument whenever one is supplied, the default command
otherwise. -/
def claimedCommand (argv2 : Option String) : String :=
  match argv2 with
  | some s => s
  | none => defaultCommand

/-- Concrete provider whose fetch always succeeds with "alpha". -/
def provOkA : ContextProvider String String Unit :=
  ContextProvider.mk "A" (fun _ => Except.ok "alpha") none

/-- Concrete provider whose fetch always succeeds with "beta". -/
def provOkB : ContextProvider String String Unit :=
  ContextProvider.mk "B" (fun _ => Except.ok "beta") none

/-- Concrete provider whose fetch always fails with "boom". -/
def provFailC : ContextProvider String String Unit :=
  ContextProvider.mk "C" (fun _ => Except.error "boom") none

/-- Concrete provider whose fetch always fails with "down". -/
def provFailD : ContextProvider String String Unit :=
  ContextProvider.mk "D" (fun _ => Except.error "down") none

/-- The default simple concatenation strategy packaged under the
orchestrator's strategy contract. -/
def concatStrategy : CombinationStrategy String :=
  CombinationStrategy.mk SimpleConcatenationStrategy.withDefaultSeparator.combine

/-- Concrete orchestrator: two succeeding providers under FailFast. -/
def ex1Orch : Orchestrator String String Unit :=
  Orchestrator.mk [provOkA, provOkB] concatStrategy FailurePolicy.failFast

/-- Concrete orchestrator: a success and a failure under FailFast. -/
def exFailOrch : Orchestrator String String Unit :=
  Orchestrator.mk [provOkA, provFailC] concatStrategy FailurePolicy.failFast

/-- Concrete orchestrator: success, failure, success under BestEffort. -/
def exBestOrch : Orchestrator String String Unit :=
  Orchestrator.mk [provOkA, provFailC, provOkB] concatStrategy FailurePolicy.bestEffort

/-- Concrete orchestrator: one success among three providers under
BestEffortWithThreshold 2. -/
def exThrOrch : Orchestrator String String Unit :=
  Orchestrator.mk [provOkA, provFailC, provFailD] concatStrategy
    (FailurePolicy.bestEffortWithThreshold 2)

/-- Concrete provider for the threshold counterexample: a single
always-succeeding provider. -/
def cexProvider : ContextProvider String String Unit :=
  ContextProvider.mk "solo" (fun _ => Except.ok "ctx") none

/-- Concrete orchestrator whose threshold exceeds its provider count:
one always-succeeding provider under BestEffortWithThreshold 2. -/
def cexOrch : Orchestrator String String Unit :=
  Orchestrator.mk [cexProvider] concatStrategy (FailurePolicy.bestEffortWithThreshold 2)

/-- Delivering call `i` leaves every other slot untouched. -/
theorem deliverOne_getElem?_ne {β : Type} (results : List β) (slots : List (Option β))
    {i j : Nat} (hij : i ≠ j) : (deliverOne results slots i)[j]? = slots[j]? := by
  unfold deliverOne
  cases h : results[i]? with
  | none => rfl
  | some r => exact List.getElem?_set_ne hij

/-- Delivering call `i` fills slot `i` with the result of call `i`. -/
theorem deliverOne_getElem?_self {β : Type} (results : List β) (slots : List (Option β))
    (hlen : slots.length = results.length) (i : Nat) :
    (deliverOne results slots i)[i]? =
      match results[i]? with
      | some r => some (some r)
      | none => slots[i]? := by
  unfold deliverOne
  cases h : results[i]? with
  | none => rfl
  | some r =>
    have hi : i < slots.length := by
      rw [hlen]
      exact (List.getElem?_eq_some_iff.mp h).1
    simp [List.getElem?_set_self hi]

/-- Delivery preserves the number of slots. -/
theorem foldl_deliverOne_length {β : Type} (results : List β) (order : List Nat)
    (slots : List (Option β)) :
    (order.foldl (deliverOne results) slots).length = slots.length := by
  induction order generalizing slots with
  | nil => rfl
  | cons i rest ih =>
    rw [List.foldl_cons, ih]
    cases h : results[i]? <;> simp [deliverOne, h]

/-- After a batch of deliveries, a slot holds its own call's result
exactly when its index was delivered, and is otherwise untouched. -/
theorem foldl_deliverOne_getElem? {β : Type} (results : List β) (order : List Nat)
    (slots : List (Option β)) (hlen : slots.length = results.length) (j : Nat) :
    (order.foldl (deliverOne results) slots)[j]? =
      if j ∈ order then
        match results[j]? with
        | some r => some (some r)
        | none => slots[j]?
      else slots[j]? := by
  induction order generalizing slots with
  | nil => simp
  | cons i rest ih =>
    rw [List.foldl_cons]
    have hlen2 : (deliverOne results slots i).length = results.length := by
      cases h : results[i]? <;> simp [deliverOne, h, hlen]
    rw [ih _ hlen2]
    by_cases hjr : j ∈ rest
    · have hjc : j ∈ i :: rest := List.mem_cons_of_mem _ hjr
      simp only [hjr, hjc, if_true]
      cases h : results[j]? with
      | some r => rfl
      | none =>
        by_cases hij : i = j
        · subst hij
          rw [deliverOne_getElem?_self results slots hlen i, h]
        · exact deliverOne_getElem?_ne results slots hij
    · simp only [hjr, if_false]
      by_cases hij : j = i
      · have hjc : j ∈ i :: rest := by simp [hij]
        simp only [hjc, if_true]
        subst hij
        rw [deliverOne_getElem?_self results slots hlen j]
      · have hjc : ¬ j ∈ i :: rest := by
          intro hc
          rcases List.mem_cons.mp hc with h1 | h1
          · exact hij h1
          · exact hjr h1
        simp only [hjc, if_false]
        exact deliverOne_getElem?_ne results slots (fun he => hij he.symm)

/-- Under any delivery order that is a permutation of the call indices,
every slot ends up holding its own call's result: the collected slots
are exactly the fan-out results, independent of completion order. -/
theorem collectInOrder_perm {β : Type} (results : List β) (order : List Nat)
    (hperm : order.Perm (List.range results.length)) :
    collectInOrder results order = results.map some := by
  apply List.ext_getElem?
  intro j
  unfold collectInOrder
  rw [foldl_deliverOne_getElem? results order (List.replicate results.length none) (by simp) j]
  have hmem : j ∈ order ↔ j < results.length := by
    rw [hperm.mem_iff, List.mem_range]
  by_cases hj : j < results.length
  · have h1 : j ∈ order := hmem.mpr hj
    simp only [h1, if_true]
    rw [List.getElem?_eq_getElem hj, List.getElem?_map, List.getElem?_eq_getElem hj]
    rfl
  · have h1 : ¬ j ∈ order := fun h => hj (hmem.mp h)
    simp only [h1, if_false]
    rw [List.getElem?_eq_none (by simpa using Nat.le_of_not_lt hj),
      List.getElem?_eq_none (by simpa using Nat.le_of_not_lt hj)]

/-- A fully delivered slot list sequences to its contents. -/
theorem sequenceOptions_map_some {β : Type} (l : List β) :
    sequenceOptions (l.map some) = some l := by
  induction l with
  | nil => rfl
  | cons b rest ih => simp [sequenceOptions, ih]

/-- Scheduled gathering is completion-order independent: under any
delivery order that is a permutation of the provider indices it settles
to exactly the unscheduled gather. -/
theorem gatherAndCombineWithOrder_perm {q α ρ : Type} (orch : Orchestrator q α ρ) (query : q)
    (order : List Nat) (hperm : order.Perm (List.range orch.providers.length)) :
    gatherAndCombineWithOrder orch query order = some (gatherAndCombine orch query) := by
  unfold gatherAndCombineWithOrder gatherAndCombine
  have hlen : (gatherResults orch.providers query).length = orch.providers.length := by
    simp [gatherResults]
  rw [collectInOrder_perm _ _ (by rw [hlen]; exact hperm), sequenceOptions_map_some]

/-- The successes surviving a fan-out are the successfully fetched
values, in registration order. -/
theorem successValues_gatherResults {q α ρ : Type} (providers : List (ContextProvider q α ρ))
    (query : q) : successValues (gatherResults providers query) = fetchedValues providers query := by
  unfold successValues gatherResults fetchedValues
  rw [List.filterMap_map]
  congr 1
  funext p
  unfold fetchOutcome
  cases h : p.fetch query <;> simp [Function.comp, h, Except.toOption]

/-- The failure entries of a fan-out are the failed providers with
their causes, in registration order. -/
theorem failureEntries_gatherResults {q α ρ : Type} (providers : List (ContextProvider q α ρ))
    (query : q) : failureEntries (gatherResults providers query) = fetchFailures providers query := by
  unfold failureEntries gatherResults fetchFailures
  rw [List.filterMap_map]
  congr 1
  funext p
  unfold fetchOutcome
  cases h : p.fetch query <;> simp [Function.comp, h]

/-- Membership in the failure list characterises exactly the providers
whose fetch failed, with their causes. -/
theorem fetchFailures_mem {q α ρ : Type} (providers : List (ContextProvider q α ρ)) (query : q)
    (pid e : String) :
    (pid, e) ∈ fetchFailures providers query ↔
      ∃ p ∈ providers, p.identity = pid ∧ p.fetch query = Except.error e := by
  unfold fetchFailures
  rw [List.mem_filterMap]
  constructor
  · rintro ⟨p, hp, hf⟩
    cases h : p.fetch query with
    | ok v => rw [h] at hf; cases hf
    | error err =>
      rw [h] at hf
      have h2 : p.identity = pid ∧ err = e := by
        have := Option.some.inj hf
        exact ⟨congrArg Prod.fst this, congrArg Prod.snd this⟩
      exact ⟨p, hp, h2.1, by rw [h, h2.2]⟩
  · rintro ⟨p, hp, hid, hf⟩
    exact ⟨p, hp, by rw [hf, hid]⟩

/-- When every provider's fetch succeeds there are no failure
entries. -/
theorem fetchFailures_eq_nil {q α ρ : Type} (providers : List (ContextProvider q α ρ)) (query : q)
    (hsucc : ∀ p ∈ providers, ∃ v, p.fetch query = Except.ok v) :
    fetchFailures providers query = [] := by
  unfold fetchFailures
  rw [List.filterMap_eq_nil_iff]
  intro p hp
  obtain ⟨v, hv⟩ := hsucc p hp
  rw [hv]

/-- When every provider's fetch succeeds, one value is fetched per
provider. -/
theorem fetchedValues_length {q α ρ : Type} (providers : List (ContextProvider q α ρ)) (query : q)
    (hsucc : ∀ p ∈ providers, ∃ v, p.fetch query = Except.ok v) :
    (fetchedValues providers query).length = providers.length := by
  unfold fetchedValues
  induction providers with
  | nil => rfl
  | cons p rest ih =>
    obtain ⟨v, hv⟩ := hsucc p (List.mem_cons_self p rest)
    rw [List.filterMap_cons]
    rw [hv]
    show (v :: rest.filterMap (fun p2 => (p2.fetch query).toOption)).length = rest.length + 1
    rw [List.length_cons, ih (fun p2 hp2 => hsucc p2 (List.mem_cons_of_mem _ hp2))]

/-- C1 (counterexample): the claim fails as stated.  In the
configuration `cexOrch` every provider's fetch succeeds and the
registry is non-empty, yet under the failure policy
BestEffortWithThreshold 2 the gather does not return the strategy's
combination of the successes — it fails with InsufficientContext,
because the threshold exceeds the provider count. -/
theorem gather_allSuccess_threshold_counterexample :
    cexProvider.fetch "q" = Except.ok "ctx"
    ∧ cexOrch.providers = [cexProvider]
    ∧ [0].Perm (List.range cexOrch.providers.length)
    ∧ gatherAndCombineWithOrder cexOrch "q" [0] ≠
        some (GatherOutcome.mk
          ((cexOrch.strategy.combine (fetchedValues cexOrch.providers "q")).mapError
            MergeError.toOrchError) []) := by
  refine ⟨rfl, rfl, by decide, by decide⟩

/-- C1 (amended): for every non-empty provider registry in which every
provider's fetch succeeds and whose failure policy, when it is
BestEffortWithThreshold, requires no more successes than there are
providers, `gatherAndCombine` returns exactly the strategy's
combination of the successful results in provider-registration order
and empty diagnostics, for every completion order of the concurrent
fetches. -/
theorem gather_allSuccess_registration_order {q α ρ : Type} (orch : Orchestrator q α ρ)
    (query : q) (order : List Nat)
    (hne : orch.providers ≠ [])
    (hsucc : ∀ p ∈ orch.providers, ∃ v, p.fetch query = Except.ok v)
    (hthr : ∀ m, orch.policy = FailurePolicy.bestEffortWithThreshold m →
      m ≤ orch.providers.length)
    (hperm : order.Perm (List.range orch.providers.length)) :
    gatherAndCombineWithOrder orch query order =
      some (GatherOutcome.mk
        ((orch.strategy.combine (fetchedValues orch.providers query)).mapError
          MergeError.toOrchError) []) := by
  rw [gatherAndCombineWithOrder_perm orch query order hperm]
  congr 1
  unfold gatherAndCombine settleGather
  have hfail : failureEntries (gatherResults orch.providers query) = [] := by
    rw [failureEntries_gatherResults]
    exact fetchFailures_eq_nil _ _ hsucc
  have hsv : successValues (gatherResults orch.providers query) =
      fetchedValues orch.providers query := successValues_gatherResults _ _
  cases hpol : orch.policy with
  | failFast =>
    simp only [hfail, hsv]
    rfl
  | bestEffort =>
    simp only [hfail, hsv]
    rfl
  | bestEffortWithThreshold m =>
    simp only [hfail, hsv, fetchedValues_length _ _ hsucc]
    rw [if_neg (Nat.not_lt.mpr (hthr m hpol))]
    rfl

/-- C1 witness: the amended theorem at a concrete two-provider
configuration, with the completion order reversed against the
registration order. -/
theorem gather_allSuccess_registration_order_witness :
    gatherAndCombineWithOrder ex1Orch "q" [1, 0] =
      some (GatherOutcome.mk (Except.ok "alpha\nbeta") []) := by
  have h := gather_allSuccess_registration_order ex1Orch "q" [1, 0]
    (List.cons_ne_nil _ _)
    (by
      intro p hp
      have hp2 : p ∈ [provOkA, provOkB] := hp
      rcases List.mem_cons.mp hp2 with h1 | h1
      · exact ⟨"alpha", by subst h1; rfl⟩
      · rcases List.mem_cons.mp h1 with h2 | h2
        · exact ⟨"beta", by subst h2; rfl⟩
        · exact absurd h2 (List.not_mem_nil p))
    (fun m hm => FailurePolicy.noConfusion hm)
    (by decide)
  rw [h]
  rfl

/-- C2: under the FailFast policy, when at least one provider's fetch
fails, the gather fails with an AggregateError carrying exactly the
failed providers and their causes (membership characterised in the last
conjunct), and the outcome is the same for every combination strategy —
the strategy is never invoked. -/
theorem failFast_aggregate_error {q α ρ : Type} (orch : Orchestrator q α ρ) (query : q)
    (hpol : orch.policy = FailurePolicy.failFast)
    (hfail : ∃ p ∈ orch.providers, ∃ e, p.fetch query = Except.error e) :
    gatherAndCombine orch query =
      GatherOutcome.mk
        (Except.error (OrchError.aggregateError (fetchFailures orch.providers query)))
        (fetchFailures orch.providers query)
    ∧ (∀ s2 : CombinationStrategy α,
        gatherAndCombine (Orchestrator.mk orch.providers s2 orch.policy) query =
          gatherAndCombine orch query)
    ∧ ∀ pid e, ((pid, e) ∈ fetchFailures orch.providers query ↔
        ∃ p ∈ orch.providers, p.identity = pid ∧ p.fetch query = Except.error e) := by
  have hne : fetchFailures orch.providers query ≠ [] := by
    obtain ⟨p, hp, e, he⟩ := hfail
    intro hnil
    have hmem : (p.identity, e) ∈ fetchFailures orch.providers query :=
      (fetchFailures_mem orch.providers query p.identity e).mpr ⟨p, hp, rfl, he⟩
    rw [hnil] at hmem
    exact List.not_mem_nil _ hmem
  have hmain : ∀ s : CombinationStrategy α,
      gatherAndCombine (Orchestrator.mk orch.providers s orch.policy) query =
        GatherOutcome.mk
          (Except.error (OrchError.aggregateError (fetchFailures orch.providers query)))
          (fetchFailures orch.providers query) := by
    intro s
    unfold gatherAndCombine settleGather
    cases hF : fetchFailures orch.providers query with
    | nil => exact absurd hF hne
    | cons f fs =>
      simp only [hpol, failureEntries_gatherResults, hF]
  refine ⟨hmain orch.strategy, fun s2 => (hmain s2).trans (hmain orch.strategy).symm,
    fun pid e => fetchFailures_mem orch.providers query pid e⟩

/-- C2 witness: the theorem at a concrete configuration with one
succeeding and one failing provider under FailFast. -/
theorem failFast_aggregate_error_witness :
    gatherAndCombine exFailOrch "q" =
      GatherOutcome.mk (Except.error (OrchError.aggregateError [("C", "boom")]))
        [("C", "boom")] := by
  have h := (failFast_aggregate_error exFailOrch "q" rfl
    ⟨provFailC, List.mem_cons_of_mem _ (List.mem_cons_self _ _), "boom", rfl⟩).1
  rw [h]
  rfl

/-- C3: under the BestEffort policy, whenever the strategy combines the
successfully fetched contexts (in registration order) to a merged
value, the gather succeeds with exactly that value, and its diagnostics
contain exactly the failed providers with their causes; this covers any
number of failures, the all-fail case included. -/
theorem bestEffort_combines_successes {q α ρ : Type} (orch : Orchestrator q α ρ) (query : q)
    (m : α)
    (hpol : orch.policy = FailurePolicy.bestEffort)
    (hcomb : orch.strategy.combine (fetchedValues orch.providers query) = Except.ok m) :
    gatherAndCombine orch query =
      GatherOutcome.mk (Except.ok m) (fetchFailures orch.providers query)
    ∧ ∀ pid e, ((pid, e) ∈ (gatherAndCombine orch query).diagnostics ↔
        ∃ p ∈ orch.providers, p.identity = pid ∧ p.fetch query = Except.error e) := by
  have h1 : gatherAndCombine orch query =
      GatherOutcome.mk (Except.ok m) (fetchFailures orch.providers query) := by
    unfold gatherAndCombine settleGather
    simp only [hpol, successValues_gatherResults, failureEntries_gatherResults,
      runStrategy, hcomb]
    rfl
  refine ⟨h1, fun pid e => ?_⟩
  rw [h1]
  exact fetchFailures_mem orch.providers query pid e

/-- C3 witness: the theorem at a concrete success-failure-success
configuration under BestEffort: two successes are combined in
registration order, the failed provider goes to diagnostics. -/
theorem bestEffort_combines_successes_witness :
    gatherAndCombine exBestOrch "q" =
      GatherOutcome.mk (Except.ok "alpha\nbeta") [("C", "boom")] := by
  have h := (bestEffort_combines_successes exBestOrch "q" "alpha\nbeta" rfl (by decide)).1
  rw [h]
  rfl

/-- C4: under BestEffortWithThreshold, the gather fails with
InsufficientContext precisely when the number of successful fetches
falls strictly below the threshold; when the successes reach the
threshold it behaves exactly as BestEffort. -/
theorem bestEffortWithThreshold_insufficient {q α ρ : Type} (orch : Orchestrator q α ρ)
    (query : q) (minS : Nat)
    (hpol : orch.policy = FailurePolicy.bestEffortWithThreshold minS) :
    ((gatherAndCombine orch query).result =
        Except.error
          (OrchError.insufficientContext (fetchedValues orch.providers query).length minS)
      ↔ (fetchedValues orch.providers query).length < minS)
    ∧ (minS ≤ (fetchedValues orch.providers query).length →
        gatherAndCombine orch query =
          gatherAndCombine
            (Orchestrator.mk orch.providers orch.strategy FailurePolicy.bestEffort) query) := by
  have hthen : (fetchedValues orch.providers query).length < minS →
      gatherAndCombine orch query =
        GatherOutcome.mk
          (Except.error
            (OrchError.insufficientContext (fetchedValues orch.providers query).length minS))
          (fetchFailures orch.providers query) := by
    intro hlt
    unfold gatherAndCombine settleGather
    simp only [hpol, successValues_gatherResults, failureEntries_gatherResults]
    rw [if_pos hlt]
  have helse : ¬ (fetchedValues orch.providers query).length < minS →
      gatherAndCombine orch query =
        GatherOutcome.mk (runStrategy orch (fetchedValues orch.providers query))
          (fetchFailures orch.providers query) := by
    intro hge
    unfold gatherAndCombine settleGather
    simp only [hpol, successValues_gatherResults, failureEntries_gatherResults]
    rw [if_neg hge]
  have hnever : runStrategy orch (fetchedValues orch.providers query) ≠
      Except.error
        (OrchError.insufficientContext (fetchedValues orch.providers query).length minS) := by
    unfold runStrategy
    cases hc : orch.strategy.combine (fetchedValues orch.providers query) with
    | ok v =>
      intro hx
      simp [Except.mapError] at hx
    | error me =>
      cases me with
      | conflict k i j =>
        intro hx
        simp [Except.mapError, MergeError.toOrchError] at hx
  refine ⟨⟨fun hres => ?_, fun hlt => by rw [hthen hlt]⟩, fun hge => ?_⟩
  · by_contra hnlt
    rw [helse hnlt] at hres
    exact hnever hres
  · have hnlt := Nat.not_lt.mpr hge
    rw [helse hnlt]
    unfold gatherAndCombine settleGather
    simp only [successValues_gatherResults, failureEntries_gatherResults]
    rfl

/-- C4 witness: three providers with one success under threshold 2 fail
with InsufficientContext, via the theorem. -/
theorem bestEffortWithThreshold_insufficient_witness :
    (gatherAndCombine exThrOrch "q").result =
      Except.error (OrchError.insufficientContext 1 2) := by
  have h := (bestEffortWithThreshold_insufficient exThrOrch "q" 2 rfl).1.mpr (by decide)
  exact h.trans (by decide)

/-- The accumulator loop of String.intercalate is a left fold that
appends one separator before each further piece. -/
theorem intercalate_go_eq (sep : String) (as : List String) (acc : String) :
    String.intercalate.go acc sep as = as.foldl (fun a x => a ++ sep ++ x) acc := by
  induction as generalizing acc with
  | nil => rfl
  | cons a rest ih =>
    rw [List.foldl_cons,
      show String.intercalate.go acc sep (a :: rest) =
        String.intercalate.go (acc ++ sep ++ a) sep rest from rfl]
    exact ih (acc ++ sep ++ a)

/-- C5: SimpleConcatenationStrategy joins any input sequence in input
order with its configured separator (it equals String.intercalate with
that separator); the default separator is a single newline; the empty
sequence combines to the empty string and a two-element sequence under
the default separator combines to the two pieces around one newline. -/
theorem simpleConcatenation_spec :
    (∀ (s : SimpleConcatenationStrategy) (contexts : List String),
        s.combine contexts = Except.ok (String.intercalate s.separator contexts))
    ∧ SimpleConcatenationStrategy.withDefaultSeparator.separator = "\n"
    ∧ SimpleConcatenationStrategy.withDefaultSeparator.combine [] = Except.ok ""
    ∧ SimpleConcatenationStrategy.withDefaultSeparator.combine ["a", "b"] =
        Except.ok "a\nb" := by
  refine ⟨fun s contexts => ?_, rfl, rfl, by decide⟩
  cases contexts with
  | nil => rfl
  | cons c cs =>
    unfold SimpleConcatenationStrategy.combine
    rw [show String.intercalate s.separator (c :: cs) =
      String.intercalate.go c s.separator cs from rfl]
    rw [intercalate_go_eq]

/-- C6: DictionaryMergeStrategy defaults to LastWins; under LastWins a
later mapping's value overwrites an earlier one for the same key (shown
for an arbitrary key and values, and at the concrete input of the
claim); under FailOnConflict a colliding key makes the merge fail with
a MergeConflict naming that key and the input positions of both
colliding providers. -/
theorem dictionaryMerge_spec :
    DictionaryMergeStrategy.withDefaultPolicy.collisionPolicy = CollisionPolicy.lastWins
    ∧ (∀ (key : String) (v1 v2 : Int),
        (DictionaryMergeStrategy.mk CollisionPolicy.lastWins).combine
          [[(key, v1)], [(key, v2)]] = Except.ok [(key, v2)])
    ∧ (DictionaryMergeStrategy.mk CollisionPolicy.lastWins).combine
        [[("x", (1 : Int))], [("x", 2)]] = Except.ok [("x", 2)]
    ∧ (∀ (key : String) (v1 v2 : Int),
        (DictionaryMergeStrategy.mk CollisionPolicy.failOnConflict).combine
          [[(key, v1)], [(key, v2)]] = Except.error (MergeError.conflict key 0 1))
    ∧ (DictionaryMergeStrategy.mk CollisionPolicy.failOnConflict).combine
        [[("x", (1 : Int))], [("x", 2)]] = Except.error (MergeError.conflict "x" 0 1) := by
  refine ⟨rfl, fun key v1 v2 => ?_, by decide, fun key v1 v2 => ?_, by decide⟩
  · simp [DictionaryMergeStrategy.combine, mergeTagged, insertContext, insertEntry,
      List.enum, List.enumFrom, List.foldlM, List.find?, Except.map, Except.bind,
      Except.pure, bind, pure]
  · simp [DictionaryMergeStrategy.combine, mergeTagged, insertContext, insertEntry,
      List.enum, List.enumFrom, List.foldlM, List.find?, Except.map, Except.bind,
      Except.pure, bind, pure]

/-- C7: propagateUpdate is a total function returning a diagnostics
list, so it never fails at the call level; its diagnostics contain a
pair exactly when some registered provider carries that identity,
exposes the update capability, and its update of the response raised
that error — providers lacking the capability or updating successfully
contribute nothing. -/
theorem propagateUpdate_diagnostics {q α ρ : Type} (orch : Orchestrator q α ρ) (response : ρ)
    (pid e : String) :
    (pid, e) ∈ propagateUpdate orch response ↔
      ∃ p ∈ orch.providers, p.identity = pid ∧
        ∃ u, p.update = some u ∧ u response = Except.error e := by
  unfold propagateUpdate
  rw [List.mem_filterMap]
  constructor
  · rintro ⟨p, hp, hf⟩
    cases hu : p.update with
    | none =>
      simp only [hu] at hf
      exact Option.noConfusion hf
    | some u =>
      simp only [hu] at hf
      cases hr : u response with
      | ok v =>
        simp only [hr] at hf
        exact Option.noConfusion hf
      | error err =>
        simp only [hr] at hf
        have h2 := Option.some.inj hf
        have he2 : err = e := congrArg Prod.snd h2
        exact ⟨p, hp, congrArg Prod.fst h2, u, hu, by rw [hr, he2]⟩
  · rintro ⟨p, hp, hid, u, hu, hr⟩
    refine ⟨p, hp, ?_⟩
    simp only [hu, hr, hid]

/-- C8: provider calls are isolated during a gather — replacing any
other provider leaves a given call's collected slot unchanged, a
provider-level error is caught and collected as a typed failure value
carrying the cause and the provider identity, the fan-out always
collects one slot per provider, and under every completion order the
collected slots are exactly the fan-out results. -/
theorem gather_isolation {q α ρ : Type} (providers : List (ContextProvider q α ρ)) (query : q)
    (i j : Nat) (p p2 : ContextProvider q α ρ) (e : String) (order : List Nat)
    (hij : i ≠ j)
    (hp : providers[i]? = some p)
    (he : p.fetch query = Except.error e)
    (horder : order.Perm (List.range providers.length)) :
    (gatherResults (providers.set j p2) query)[i]? = (gatherResults providers query)[i]?
    ∧ (gatherResults providers query)[i]? = some (ContextResult.failure e p.identity)
    ∧ (gatherResults providers query).length = providers.length
    ∧ collectInOrder (gatherResults providers query) order =
        (gatherResults providers query).map some := by
  have hmap : ∀ (ps : List (ContextProvider q α ρ)) (k : Nat),
      (gatherResults ps query)[k]? = (ps[k]?).map (fun pr => fetchOutcome pr query) := by
    intro ps k
    unfold gatherResults
    rw [List.getElem?_map]
  refine ⟨?_, ?_, by simp [gatherResults], ?_⟩
  · rw [hmap, hmap, List.getElem?_set_ne (fun h => hij h.symm)]
  · rw [hmap, hp]
    simp [fetchOutcome, he]
  · apply collectInOrder_perm
    simpa [gatherResults] using horder

/-- C8 witness: the theorem at a concrete two-provider registry whose
first provider fails, with sibling replacement at the second position
and the reversed completion order. -/
theorem gather_isolation_witness :
    (gatherResults [provFailC, provOkB] "q")[0]? =
      some (ContextResult.failure "boom" "C") :=
  (gather_isolation [provFailC, provOkB] "q" 0 1 provFailC provOkA "boom" [1, 0]
    (by decide) rfl rfl (by decide)).2.1

/-- C9 (counterexample): the claim fails as stated.  When the empty
string is supplied as the first command-line argument, the script's
JavaScript default kicks in (the empty string is falsy), so the sent
message carries the default command rather than the supplied
argument. -/
theorem sendCommand_empty_arg_counterexample :
    sentMessage (some "") ≠
      jsonStringifyExecuteMessage (ExecuteMessage.mk "execute" (claimedCommand (some ""))) := by
  decide

/-- C9 (amended): the message sent over a successfully opened WebSocket
connection is the JSON serialization of an object whose type field is
"execute" and whose command field equals the first command-line
argument when a non-empty one is supplied, and "Go to google.com" when
the argument is absent or empty. -/
theorem sendCommand_message :
    (∀ s : String, s ≠ "" →
        sentMessage (some s) = jsonStringifyExecuteMessage (ExecuteMessage.mk "execute" s))
    ∧ sentMessage none =
        jsonStringifyExecuteMessage (ExecuteMessage.mk "execute" "Go to google.com")
    ∧ sentMessage (some "") =
        jsonStringifyExecuteMessage (ExecuteMessage.mk "execute" "Go to google.com") := by
  refine ⟨fun s hs => ?_, rfl, rfl⟩
  show jsonStringifyExecuteMessage
      (ExecuteMessage.mk "execute" (if s = "" then defaultCommand else s)) =
    jsonStringifyExecuteMessage (ExecuteMessage.mk "execute" s)
  rw [if_neg hs]

/-- C9 witness: the amended theorem at a concrete non-empty argument. -/
theorem sendCommand_message_witness :
    sentMessage (some "go") =
      jsonStringifyExecuteMessage (ExecuteMessage.mk "execute" "go") :=
  sendCommand_message.1 "go" (by decide)
